import Mathlib

/-!
Verification of the console snake game (`snake.py`).

The game state is shallowly embedded: the occupancy grid `GameField.cells`
is a boolean function on `(row, column)` pairs, the snake is the ordered
list `snake_elements` of segment positions with the head first, and the
`GameOver` exception is modelled with `Except`, where the error value
carries both the exception message and the game state at the moment of the
raise (Python objects keep all mutations performed before the raise).
The calls to `random.choice` in `get_free_cell` are modelled by an extra
`Nat` parameter selecting an index into the list of candidate cells.
-/

/-- The four headings of the `Direction` enum. -/
inductive Direction where
  | left
  | right
  | up
  | down
deriving DecidableEq

/-- The raw `curses` key code of each `Direction` enum member
(`KEY_LEFT = 260`, `KEY_RIGHT = 261`, `KEY_UP = 259`, `KEY_DOWN = 258`).
`Direction(event)` in `Snake.event_received` succeeds exactly on these four
codes and raises `ValueError` on every other code, including the `-1`
returned by a non-blocking `getch` when no input is available. -/
def Direction.ofCode (code : Int) : Option Direction :=
  if code = 260 then some .left
  else if code = 261 then some .right
  else if code = 259 then some .up
  else if code = 258 then some .down
  else none

/-- Whether a heading lies in the horizontal axis-pair `\x7bLEFT, RIGHT\x7d`. -/
def Direction.horizontal : Direction → Bool
  | .left => true
  | .right => true
  | .up => false
  | .down => false

/-- The occupancy grid `self.cells`: `(y, x) ↦ blocked?`. -/
def Cells := Nat × Nat → Bool

/-- A single cell write `self.cells[y][x] = b`. -/
def setCell (c : Cells) (p : Nat × Nat) (b : Bool) : Cells :=
  fun q => if q = p then b else c q

/-- Marking every cell of a list, in order (the net effect of the marks
performed by the `_move_tail` loop). -/
def markAll (ps : List (Nat × Nat)) (c : Cells) : Cells :=
  ps.foldl (fun c p => setCell c p true) c

/-- The `GameField` class: the grid of blocked flags plus its dimensions.
`GameField(width, height)` starts with every flag `False`. -/
structure GameField where
  cells : Cells
  width : Nat
  height : Nat

/-- `GameField.__init__`: an all-free grid. -/
def GameField.init (width height : Nat) : GameField :=
  { cells := fun _ => false, width := width, height := height }

/-- The list of candidate cells built inside `GameField.get_free_cell`:
`for y in range(1, height - 2): for x in range(1, width - 2): if not cells[y][x]`.
Note the scan stops at `height - 3` and `width - 3` inclusive. -/
def GameField.free_cells (f : GameField) : List (Nat × Nat) :=
  (List.range' 1 (f.height - 3)).flatMap fun y =>
    ((List.range' 1 (f.width - 3)).filter fun x => !(f.cells (y, x))).map fun x => (y, x)

/-- `GameField.get_free_cell`: raises `GameOver('win')` when the candidate
list is empty, otherwise returns `random.choice(free_cells)`; the random
draw is modelled by reducing the parameter `k` modulo the list length. -/
def GameField.get_free_cell (f : GameField) (k : Nat) : Except String (Nat × Nat) :=
  match f.free_cells with
  | [] => .error "win"
  | c :: cs => .ok ((c :: cs).getD (k % (c :: cs).length) c)

/-- `Border.__init__`: mark row `0`, row `height - 1`, column `0` and
column `width - 1` of the grid as blocked (each loop only touches indices
below `width` resp. `height`). -/
def Border.mark (height width : Nat) (c : Cells) : Cells :=
  fun p =>
    if ((p.1 = 0 ∨ p.1 = height - 1) ∧ p.2 < width) ∨
        ((p.2 = 0 ∨ p.2 = width - 1) ∧ p.1 < height) then true
    else c p

/-- The set of cells marked by `Border.__init__` for a `height × width` field. -/
def isBorderCell (height width : Nat) (p : Nat × Nat) : Prop :=
  ((p.1 = 0 ∨ p.1 = height - 1) ∧ p.2 < width) ∨
    ((p.2 = 0 ∨ p.2 = width - 1) ∧ p.1 < height)

instance (height width : Nat) (p : Nat × Nat) : Decidable (isBorderCell height width p) := by
  unfold isBorderCell
  infer_instance

/-- The full mutable game state reachable from one `Snake` object: its
heading, the per-tick `direction_changed` flag, the segment list
`snake_elements` (head first, entries are `(y, x)`), the shared
`game_field`, the current `Mouse` position and the `Info` score. -/
structure SnakeGame where
  direction : Direction
  direction_changed : Bool
  snake_elements : List (Nat × Nat)
  game_field : GameField
  mouse : Nat × Nat
  score : Nat

/-- `Snake.head`: `self.snake_elements[0]` (the live states always have a
non-empty segment list; the default is irrelevant there). -/
def Snake.head (s : SnakeGame) : Nat × Nat :=
  s.snake_elements.headD (0, 0)

/-- One-cell displacement of the head performed by
`_move_right` / `_move_left` / `_move_up` / `_move_down`. -/
def Pos.step (d : Direction) (p : Nat × Nat) : Nat × Nat :=
  match d with
  | .right => (p.1, p.2 + 1)
  | .left => (p.1, p.2 - 1)
  | .up => (p.1 - 1, p.2)
  | .down => (p.1 + 1, p.2)

/-- The `GameOver` message raised by the four directional move methods. -/
def bumped : Direction → String
  | .right => "bumped right"
  | .left => "bumped left"
  | .up => "bumped up"
  | .down => "bumped down"

/-- `Snake._move_head`: dispatch on `self.direction`; the chosen
`_move_<dir>` raises `GameOver('bumped <dir>')` when the destination cell is
blocked and otherwise updates the head coordinates, after which
`_move_head` marks the (new) head cell. On a raise no mutation has
happened, so the error carries the unchanged state. -/
def Snake.move_head (s : SnakeGame) : Except (String × SnakeGame) SnakeGame :=
  let dest := Pos.step s.direction (Snake.head s)
  if s.game_field.cells dest then
    .error (bumped s.direction, s)
  else
    .ok { s with
      snake_elements := dest :: s.snake_elements.tail,
      game_field := { s.game_field with cells := setCell s.game_field.cells dest true } }

/-- The loop of `Snake._move_tail` over the indices `1 .. len - 1`:
each segment takes the previous value of its predecessor (`prev`), the
vacated-into cell `prev` is marked, and `prev` advances to the segment's
old position. Returns the shifted tail, the updated grid, and the final
value of `prev` (the old last segment position). -/
def Snake.move_tail_loop : Nat × Nat → List (Nat × Nat) → Cells →
    List (Nat × Nat) × Cells × (Nat × Nat)
  | prev, [], cells => ([], cells, prev)
  | prev, q :: qs, cells =>
    let r := Snake.move_tail_loop q qs (setCell cells prev true)
    (prev :: r.1, r.2.1, r.2.2)

/-- `Snake._move_tail`: run the shift loop starting from
`prev = snake_elements[0]` over the remaining segments, then unmark the
final `prev` (the cell vacated by the end of the tail; the head's own cell
for a length-1 snake). -/
def Snake.move_tail (s : SnakeGame) : SnakeGame :=
  let r := Snake.move_tail_loop (Snake.head s) s.snake_elements.tail s.game_field.cells
  { s with
    snake_elements := Snake.head s :: r.1,
    game_field := { s.game_field with cells := setCell r.2.1 r.2.2 false } }

/-- `Snake.move`: `self._move_tail(); self._move_head()`. -/
def Snake.move (s : SnakeGame) : Except (String × SnakeGame) SnakeGame :=
  Snake.move_head (Snake.move_tail s)

/-- `Snake.grow`: `snake_elements.insert(0, SnakeElement(head.y, head.x))`
followed by `self._move_head()` (which advances the freshly inserted
duplicate, it now being `snake_elements[0]`). -/
def Snake.grow (s : SnakeGame) : Except (String × SnakeGame) SnakeGame :=
  Snake.move_head { s with snake_elements := Snake.head s :: s.snake_elements }

/-- `Mouse.intersect`: `self.x == head.x and self.y == head.y`. -/
def Mouse.intersect (m p : Nat × Nat) : Bool :=
  m.2 == p.2 && m.1 == p.1

/-- `Snake.action`: move; if the post-move head intersects the mouse then
grow, increment the score, remove the mouse and respawn it from
`get_free_cell` (whose `GameOver('win')` propagates; the score increment
does not touch the grid, so `get_free_cell` is read off `s2.game_field`,
which is the same field the incremented state `s3` holds); finally clear
the per-tick `direction_changed` flag. The flag is cleared only when no
exception was raised, matching the Python control flow. -/
def Snake.action (k : Nat) (s : SnakeGame) : Except (String × SnakeGame) SnakeGame :=
  match Snake.move s with
  | .error e => .error e
  | .ok s1 =>
    if Mouse.intersect s1.mouse (Snake.head s1) then
      match Snake.grow s1 with
      | .error e => .error e
      | .ok s2 =>
        let s3 := { s2 with score := s2.score + 1 }
        match s2.game_field.get_free_cell k with
        | .error msg => .error (msg, s3)
        | .ok c => .ok { s3 with mouse := c, direction_changed := false }
    else .ok { s1 with direction_changed := false }

/-- `Snake.change_direction`: under the direction lock, do nothing when the
per-tick `direction_changed` flag is already set; otherwise run the guard
chain (a requested heading is applied only when the current heading is not
in the same axis-pair) and set the flag unconditionally. -/
def Snake.change_direction (nd : Direction) (s : SnakeGame) : SnakeGame :=
  if s.direction_changed then s
  else
    let d :=
      if nd = Direction.right ∧ ¬(s.direction = Direction.right ∨ s.direction = Direction.left) then
        Direction.right
      else if nd = Direction.left ∧ ¬(s.direction = Direction.right ∨ s.direction = Direction.left) then
        Direction.left
      else if nd = Direction.up ∧ ¬(s.direction = Direction.up ∨ s.direction = Direction.down) then
        Direction.up
      else if nd = Direction.down ∧ ¬(s.direction = Direction.up ∨ s.direction = Direction.down) then
        Direction.down
      else s.direction
    { s with direction := d, direction_changed := true }

/-- `Snake.event_received`: `Direction(event)` then `change_direction`;
a `ValueError` from an unrecognized code is swallowed (`except ... pass`). -/
def Snake.event_received (code : Int) (s : SnakeGame) : SnakeGame :=
  match Direction.ofCode code with
  | some d => Snake.change_direction d s
  | none => s

/-- The field produced in `main`: `GameField(width, height)` then
`Border(height, width, game_field)`. -/
def GameField.withBorder (width height : Nat) : GameField :=
  let f := GameField.init width height
  { f with cells := Border.mark height width f.cells }

/-- The state after `Snake.__init__` on a bordered field (heading RIGHT,
flag clear, one segment on the chosen free cell `c`, that cell marked) and
`Mouse(*game_field.get_free_cell())` (the mouse cell `m` is never marked). -/
def initGame (width height : Nat) (c m : Nat × Nat) : SnakeGame :=
  let f := GameField.withBorder width height
  { direction := .right
    direction_changed := false
    snake_elements := [c]
    game_field := { f with cells := setCell f.cells c true }
    mouse := m
    score := 0 }

/-- Strictly inside the border ring of a `height × width` field. -/
def Interior (height width : Nat) (p : Nat × Nat) : Prop :=
  1 ≤ p.1 ∧ p.1 ≤ height - 2 ∧ 1 ≤ p.2 ∧ p.2 ≤ width - 2

instance (height width : Nat) (p : Nat × Nat) : Decidable (Interior height width p) := by
  unfold Interior
  infer_instance

/-- The occupancy invariant: a cell of the grid is marked blocked exactly
when it is a border cell or a current snake segment position. -/
def OccInv (s : SnakeGame) : Prop :=
  ∀ y, y < s.game_field.height → ∀ x, x < s.game_field.width →
    (s.game_field.cells (y, x) = true ↔
      (isBorderCell s.game_field.height s.game_field.width (y, x) ∨
        (y, x) ∈ s.snake_elements))

instance (s : SnakeGame) : Decidable (OccInv s) := by
  unfold OccInv
  infer_instance

/-- The segment-list side conditions maintained by the game: the snake is
non-empty, no two segments share a position, and every segment is strictly
inside the border ring. -/
def SegInv (s : SnakeGame) : Prop :=
  s.snake_elements ≠ [] ∧ s.snake_elements.Nodup ∧
    ∀ p ∈ s.snake_elements, Interior s.game_field.height s.game_field.width p

instance (s : SnakeGame) : Decidable (SegInv s) := by
  unfold SegInv
  infer_instance

/-- The full inductive invariant of the snake game. -/
def GameInv (s : SnakeGame) : Prop :=
  OccInv s ∧ SegInv s

instance (s : SnakeGame) : Decidable (GameInv s) := by
  unfold GameInv
  infer_instance

/-- In-bounds side condition for one head move: the head row and column
exist, and the destination index is the true destination cell (no Python
negative-index wrap-around and no `IndexError`). -/
def head_move_in_bounds (s : SnakeGame) : Prop :=
  (Snake.head s).1 < s.game_field.height ∧ (Snake.head s).2 < s.game_field.width ∧
    match s.direction with
    | .right => (Snake.head s).2 + 1 < s.game_field.width
    | .left => 1 ≤ (Snake.head s).2
    | .up => 1 ≤ (Snake.head s).1
    | .down => (Snake.head s).1 + 1 < s.game_field.height

instance (s : SnakeGame) : Decidable (head_move_in_bounds s) := by
  unfold head_move_in_bounds
  cases s.direction <;> exact inferInstance

/-! ### Concrete sample states (used by the evaluation theorems below) -/

/-- A 6×6 game started as in `main`: bordered field, snake spawned on the
free cell `(1, 1)` heading RIGHT, mouse at `(3, 3)`. -/
def demoInit : SnakeGame := initGame 6 6 (1, 1) (3, 3)

/-- The state after one successful tick of `demoInit`. -/
def demoStep : SnakeGame :=
  match Snake.action 0 demoInit with
  | .ok s => s
  | .error e => e.2

/-- `demoInit` with the per-tick change flag already set. -/
def demoFlagged : SnakeGame := { demoInit with direction_changed := true }

/-- A 6×6 game whose mouse sits directly ahead of the snake. -/
def demoEat : SnakeGame := initGame 6 6 (1, 1) (1, 2)

/-- The state after `Snake.move` on `demoEat` (head on the mouse). -/
def demoEatMoved : SnakeGame :=
  match Snake.move demoEat with
  | .ok s => s
  | .error e => e.2

/-- The state after the full eating tick of `demoEat`. -/
def demoEatStep : SnakeGame :=
  match Snake.action 0 demoEat with
  | .ok s => s
  | .error e => e.2

/-- A 6×6 game whose mouse sits directly ahead of the snake and directly
beside the right wall, so the growth advance collides. -/
def demoEat2 : SnakeGame := initGame 6 6 (1, 3) (1, 4)

/-- The state after `Snake.move` on `demoEat2`. -/
def demoEat2Moved : SnakeGame :=
  match Snake.move demoEat2 with
  | .ok s => s
  | .error e => e.2

/-- A 6×6 state whose snake head `(1, 4)` faces the right border wall. -/
def demoWall : SnakeGame :=
  { direction := .right
    direction_changed := false
    snake_elements := [(1, 4)]
    game_field :=
      { cells := setCell (Border.mark 6 6 fun _ => false) (1, 4) true
        width := 6
        height := 6 }
    mouse := (3, 3)
    score := 0 }

/-- A 4×4 field whose single cell scanned by `get_free_cell` — `(1, 1)` —
is blocked, while the genuine interior cells `(1, 2)`, `(2, 1)` and
`(2, 2)` are free. -/
def offByOneField : GameField :=
  { cells := setCell (Border.mark 4 4 fun _ => false) (1, 1) true
    width := 4
    height := 4 }

/-! ### Basic lemmas about the grid and the tail shift -/

theorem setCell_eval (c : Cells) (p q : Nat × Nat) (b : Bool) :
    setCell c p b q = if q = p then b else c q := rfl

theorem markAll_eval (ps : List (Nat × Nat)) (c : Cells) (q : Nat × Nat) :
    markAll ps c q = if q ∈ ps then true else c q := by
  induction ps generalizing c with
  | nil => simp [markAll]
  | cons p ps ih =>
    show markAll ps (setCell c p true) q = _
    rw [ih]
    simp only [setCell_eval, List.mem_cons]
    by_cases h1 : q ∈ ps <;> by_cases h2 : q = p <;> simp [h1, h2]

theorem getLastD_shift (a b : Nat × Nat) (l : List (Nat × Nat)) :
    (b :: l).getLastD a = l.getLastD b := by
  cases l <;> rfl

theorem move_tail_loop_spec (l : List (Nat × Nat)) (prev : Nat × Nat) (cells : Cells) :
    Snake.move_tail_loop prev l cells =
      ((prev :: l).dropLast, markAll ((prev :: l).dropLast) cells, l.getLastD prev) := by
  induction l generalizing prev cells with
  | nil => simp [Snake.move_tail_loop, markAll]
  | cons q qs ih =>
    simp only [Snake.move_tail_loop, ih]
    rw [List.dropLast_cons₂, getLastD_shift]
    rfl

theorem dropLast_append_getLastD (p : Nat × Nat) (rest : List (Nat × Nat)) :
    (p :: rest).dropLast ++ [rest.getLastD p] = p :: rest := by
  induction rest generalizing p with
  | nil => rfl
  | cons q qs ih =>
    rw [getLastD_shift, List.dropLast_cons₂, List.cons_append, ih]

theorem move_tail_spec (s : SnakeGame) (p : Nat × Nat) (rest : List (Nat × Nat))
    (h : s.snake_elements = p :: rest) :
    Snake.move_tail s = { s with
      snake_elements := p :: (p :: rest).dropLast,
      game_field := { s.game_field with
        cells := setCell (markAll ((p :: rest).dropLast) s.game_field.cells)
          (rest.getLastD p) false } } := by
  unfold Snake.move_tail
  simp [Snake.head, h, move_tail_loop_spec]

theorem move_head_blocked (s : SnakeGame)
    (h : s.game_field.cells (Pos.step s.direction (Snake.head s)) = true) :
    Snake.move_head s = .error (bumped s.direction, s) := by
  unfold Snake.move_head
  simp [h]

theorem move_head_free (s : SnakeGame)
    (h : s.game_field.cells (Pos.step s.direction (Snake.head s)) = false) :
    Snake.move_head s = .ok { s with
      snake_elements := Pos.step s.direction (Snake.head s) :: s.snake_elements.tail,
      game_field := { s.game_field with
        cells := setCell s.game_field.cells (Pos.step s.direction (Snake.head s)) true } } := by
  unfold Snake.move_head
  simp [h]

theorem move_ok_dest (s s1 : SnakeGame) (p : Nat × Nat) (rest : List (Nat × Nat))
    (h : s.snake_elements = p :: rest) (hok : Snake.move s = .ok s1) :
    (Snake.move_tail s).game_field.cells (Pos.step s.direction p) = false ∧
    s1 = { s with
      snake_elements := Pos.step s.direction p :: (p :: rest).dropLast,
      game_field := { s.game_field with
        cells := setCell ((Snake.move_tail s).game_field.cells)
          (Pos.step s.direction p) true } } := by
  have htail := move_tail_spec s p rest h
  unfold Snake.move at hok
  cases hc : (Snake.move_tail s).game_field.cells
      (Pos.step (Snake.move_tail s).direction (Snake.head (Snake.move_tail s))) with
  | true =>
    rw [move_head_blocked _ hc] at hok
    exact absurd hok (by simp)
  | false =>
    rw [move_head_free _ hc] at hok
    rw [htail] at hc hok ⊢
    simp only [Snake.head, List.headD_cons] at hc hok
    exact ⟨hc, by simpa using hok.symm⟩

/-! ### Interior and border helper lemmas -/

theorem interior_not_border (h w : Nat) (p : Nat × Nat) (hp : Interior h w p) :
    ¬ isBorderCell h w p := by
  unfold Interior at hp
  unfold isBorderCell
  omega

theorem not_border_interior (h w : Nat) (p : Nat × Nat) (h1 : p.1 < h) (h2 : p.2 < w)
    (hb : ¬ isBorderCell h w p) : Interior h w p := by
  unfold isBorderCell at hb
  unfold Interior
  omega

theorem step_lt (d : Direction) (h w : Nat) (p : Nat × Nat) (hp : Interior h w p) :
    (Pos.step d p).1 < h ∧ (Pos.step d p).2 < w := by
  unfold Interior at hp
  cases d <;> simp [Pos.step] <;> omega

theorem border_mark_eval (h w : Nat) (c : Cells) (p : Nat × Nat) :
    Border.mark h w c p = if isBorderCell h w p then true else c p := by
  unfold Border.mark
  by_cases hb : ((p.1 = 0 ∨ p.1 = h - 1) ∧ p.2 < w) ∨ ((p.2 = 0 ∨ p.2 = w - 1) ∧ p.1 < h)
  · rw [if_pos hb, if_pos (show isBorderCell h w p from hb)]
  · rw [if_neg hb, if_neg (show ¬ isBorderCell h w p from hb)]

theorem head_mem (s : SnakeGame) (h : s.snake_elements ≠ []) :
    Snake.head s ∈ s.snake_elements := by
  cases hel : s.snake_elements with
  | nil => exact absurd hel h
  | cons p rest => simp [Snake.head, hel]

theorem occInv_eval (s : SnakeGame) (hOcc : OccInv s) (q : Nat × Nat)
    (h1 : q.1 < s.game_field.height) (h2 : q.2 < s.game_field.width) :
    (s.game_field.cells q = true ↔
      (isBorderCell s.game_field.height s.game_field.width q ∨ q ∈ s.snake_elements)) :=
  hOcc q.1 h1 q.2 h2

theorem cellsT_eval (s : SnakeGame) (p : Nat × Nat) (rest : List (Nat × Nat))
    (h : s.snake_elements = p :: rest) (q : Nat × Nat) :
    (Snake.move_tail s).game_field.cells q =
      (if q = rest.getLastD p then false
       else if q ∈ (p :: rest).dropLast then true
       else s.game_field.cells q) := by
  rw [move_tail_spec s p rest h]
  show setCell (markAll ((p :: rest).dropLast) s.game_field.cells) (rest.getLastD p) false q = _
  simp only [setCell_eval, markAll_eval]

/-! ### Invariant preservation -/

theorem move_ok_inv (s s1 : SnakeGame) (hInv : GameInv s) (hok : Snake.move s = .ok s1) :
    GameInv s1 ∧
      s1.snake_elements =
        Pos.step s.direction (Snake.head s) :: s.snake_elements.dropLast := by
  have hInv2 : OccInv s ∧ s.snake_elements ≠ [] ∧ s.snake_elements.Nodup ∧
      ∀ p ∈ s.snake_elements, Interior s.game_field.height s.game_field.width p := hInv
  obtain ⟨hOcc, hne, hnd, hint⟩ := hInv2
  cases hel : s.snake_elements with
  | nil => exact absurd hel hne
  | cons p rest =>
  obtain ⟨hfree, hs1⟩ := move_ok_dest s s1 p rest hel hok
  have hpe : (p :: rest).dropLast ++ [rest.getLastD p] = p :: rest :=
    dropLast_append_getLastD p rest
  have hmem : ∀ q : Nat × Nat,
      q ∈ s.snake_elements ↔ q ∈ (p :: rest).dropLast ∨ q = rest.getLastD p := by
    intro q
    rw [hel, ← hpe]
    simp
  have hnd2 : ((p :: rest).dropLast).Nodup ∧ rest.getLastD p ∉ (p :: rest).dropLast := by
    have hnd3 := hnd
    rw [hel, ← hpe] at hnd3
    have h2 := List.nodup_append.mp hnd3
    exact ⟨h2.1, fun hmm => h2.2.2 hmm (List.mem_singleton_self _)⟩
  have hLint : Interior s.game_field.height s.game_field.width (rest.getLastD p) :=
    hint _ ((hmem _).mpr (Or.inr rfl))
  have hpint : Interior s.game_field.height s.game_field.width p :=
    hint p (by rw [hel]; exact List.mem_cons_self p rest)
  have hdlt := step_lt s.direction s.game_field.height s.game_field.width p hpint
  rw [cellsT_eval s p rest hel] at hfree
  have hdest : Pos.step s.direction p = rest.getLastD p ∨
      (Pos.step s.direction p ∉ (p :: rest).dropLast ∧
        s.game_field.cells (Pos.step s.direction p) = false) := by
    by_cases h1 : Pos.step s.direction p = rest.getLastD p
    · exact Or.inl h1
    · rw [if_neg h1] at hfree
      by_cases h2 : Pos.step s.direction p ∈ (p :: rest).dropLast
      · rw [if_pos h2] at hfree
        exact absurd hfree (by simp)
      · rw [if_neg h2] at hfree
        exact Or.inr ⟨h2, hfree⟩
  have hdint : Interior s.game_field.height s.game_field.width (Pos.step s.direction p) ∧
      Pos.step s.direction p ∉ (p :: rest).dropLast := by
    rcases hdest with h1 | ⟨h2, h3⟩
    · exact ⟨h1 ▸ hLint, h1 ▸ hnd2.2⟩
    · have hiff := occInv_eval s hOcc (Pos.step s.direction p) hdlt.1 hdlt.2
      rw [h3] at hiff
      have hnb : ¬ isBorderCell s.game_field.height s.game_field.width
          (Pos.step s.direction p) := by
        intro hb
        exact absurd (hiff.mpr (Or.inl hb)) (by simp)
      exact ⟨not_border_interior _ _ _ hdlt.1 hdlt.2 hnb, h2⟩
  subst hs1
  refine ⟨⟨?_, ?_⟩, ?_⟩
  · intro y hy x hx
    show setCell ((Snake.move_tail s).game_field.cells) (Pos.step s.direction p) true (y, x)
        = true ↔ _
    rw [setCell_eval]
    by_cases hq : ((y, x) : Nat × Nat) = Pos.step s.direction p
    · simp [hq]
    · rw [if_neg hq, cellsT_eval s p rest hel]
      by_cases hqL : ((y, x) : Nat × Nat) = rest.getLastD p
      · rw [if_pos hqL]
        refine iff_of_false (by simp) ?_
        intro hcon
        rcases hcon with hb | hm
        · rw [hqL] at hb
          exact interior_not_border _ _ _ hLint hb
        · rcases List.mem_cons.mp hm with h1 | h1
          · exact hq h1
          · rw [hqL] at h1
            exact hnd2.2 h1
      · rw [if_neg hqL]
        by_cases hqDL : ((y, x) : Nat × Nat) ∈ (p :: rest).dropLast
        · rw [if_pos hqDL]
          simp only [true_iff]
          exact Or.inr (List.mem_cons_of_mem _ hqDL)
        · rw [if_neg hqDL]
          rw [hOcc y hy x hx, hmem (y, x)]
          constructor
          · rintro (hb | hm | hLast)
            · exact Or.inl hb
            · exact Or.inr (List.mem_cons_of_mem _ hm)
            · exact absurd hLast hqL
          · rintro (hb | hm)
            · exact Or.inl hb
            · rcases List.mem_cons.mp hm with h1 | h1
              · exact absurd h1 hq
              · exact absurd h1 hqDL
  · refine ⟨by simp, ?_, ?_⟩
    · exact List.nodup_cons.mpr ⟨hdint.2, hnd2.1⟩
    · intro q hq
      rcases List.mem_cons.mp hq with h1 | h1
      · exact h1 ▸ hdint.1
      · exact hint q ((hmem q).mpr (Or.inl h1))
  · simp [Snake.head, hel]

theorem grow_ok_spec (s s1 : SnakeGame) (hok : Snake.grow s = .ok s1) :
    s.game_field.cells (Pos.step s.direction (Snake.head s)) = false ∧
    s1 = { s with
      snake_elements := Pos.step s.direction (Snake.head s) :: s.snake_elements,
      game_field := { s.game_field with
        cells := setCell s.game_field.cells (Pos.step s.direction (Snake.head s)) true } } := by
  unfold Snake.grow at hok
  cases hc : s.game_field.cells (Pos.step s.direction (Snake.head s)) with
  | true =>
    rw [move_head_blocked { s with snake_elements := Snake.head s :: s.snake_elements } hc]
      at hok
    exact absurd hok (by simp)
  | false =>
    rw [move_head_free { s with snake_elements := Snake.head s :: s.snake_elements } hc]
      at hok
    exact ⟨rfl, by simpa [Snake.head] using hok.symm⟩

theorem grow_ok_inv (s s1 : SnakeGame) (hInv : GameInv s) (hok : Snake.grow s = .ok s1) :
    GameInv s1 ∧
      s1.snake_elements = Pos.step s.direction (Snake.head s) :: s.snake_elements := by
  have hInv2 : OccInv s ∧ s.snake_elements ≠ [] ∧ s.snake_elements.Nodup ∧
      ∀ p ∈ s.snake_elements, Interior s.game_field.height s.game_field.width p := hInv
  obtain ⟨hOcc, hne, hnd, hint⟩ := hInv2
  obtain ⟨hfree, hs1⟩ := grow_ok_spec s s1 hok
  have hpint : Interior s.game_field.height s.game_field.width (Snake.head s) :=
    hint _ (head_mem s hne)
  have hdlt := step_lt s.direction s.game_field.height s.game_field.width (Snake.head s) hpint
  have hiff := occInv_eval s hOcc (Pos.step s.direction (Snake.head s)) hdlt.1 hdlt.2
  rw [hfree] at hiff
  have hnbm : ¬ (isBorderCell s.game_field.height s.game_field.width
      (Pos.step s.direction (Snake.head s)) ∨
      Pos.step s.direction (Snake.head s) ∈ s.snake_elements) := by
    intro hcon
    exact absurd (hiff.mpr hcon) (by simp)
  subst hs1
  refine ⟨⟨?_, ?_⟩, rfl⟩
  · intro y hy x hx
    show setCell s.game_field.cells (Pos.step s.direction (Snake.head s)) true (y, x)
        = true ↔ _
    rw [setCell_eval]
    by_cases hq : ((y, x) : Nat × Nat) = Pos.step s.direction (Snake.head s)
    · simp [hq]
    · rw [if_neg hq, hOcc y hy x hx]
      constructor
      · rintro (hb | hm)
        · exact Or.inl hb
        · exact Or.inr (List.mem_cons_of_mem _ hm)
      · rintro (hb | hm)
        · exact Or.inl hb
        · rcases List.mem_cons.mp hm with h1 | h1
          · exact absurd h1 hq
          · exact Or.inr h1
  · refine ⟨by simp, ?_, ?_⟩
    · exact List.nodup_cons.mpr ⟨fun hmm => hnbm (Or.inr hmm), hnd⟩
    · intro q hq
      rcases List.mem_cons.mp hq with h1 | h1
      · rw [h1]
        exact not_border_interior _ _ _ hdlt.1 hdlt.2 (fun hb => hnbm (Or.inl hb))
      · exact hint q h1

theorem action_ok_inv (k : Nat) (s s1 : SnakeGame) (hInv : GameInv s)
    (hok : Snake.action k s = .ok s1) : GameInv s1 := by
  unfold Snake.action at hok
  cases hmv : Snake.move s with
  | error e =>
    rw [hmv] at hok
    exact absurd hok (by simp)
  | ok sm =>
    rw [hmv] at hok
    have hsmInv := (move_ok_inv s sm hInv hmv).1
    cases hInt : Mouse.intersect sm.mouse (Snake.head sm) with
    | true =>
      simp only [hInt, if_true] at hok
      cases hgr : Snake.grow sm with
      | error e =>
        simp [hgr] at hok
      | ok sg =>
        simp only [hgr] at hok
        have hsgInv := (grow_ok_inv sm sg hsmInv hgr).1
        cases hfc : sg.game_field.get_free_cell k with
        | error msg =>
          simp [hfc] at hok
        | ok c =>
          simp only [hfc] at hok
          have hs1 : s1 =
              { sg with score := sg.score + 1, mouse := c, direction_changed := false } := by
            simpa using hok.symm
          subst hs1
          exact hsgInv
    | false =>
      simp only [hInt, Bool.false_eq_true, if_false] at hok
      have hs1 : s1 = { sm with direction_changed := false } := by
        simpa using hok.symm
      subst hs1
      exact hsmInv

/-! ### Free cells and the initial state -/

theorem mem_free_cells (f : GameField) (q : Nat × Nat) :
    q ∈ f.free_cells ↔
      (1 ≤ q.1 ∧ q.1 + 2 < f.height ∧ 1 ≤ q.2 ∧ q.2 + 2 < f.width ∧
        f.cells q = false) := by
  unfold GameField.free_cells
  simp only [List.mem_flatMap, List.mem_map, List.mem_filter, List.mem_range'_1]
  constructor
  · rintro ⟨y, ⟨hy1, hy2⟩, x, ⟨⟨hx1, hx2⟩, hxc⟩, hqe⟩
    cases hqe
    simp only [Bool.not_eq_eq_eq_not, Bool.not_true] at hxc
    exact ⟨hy1, by omega, hx1, by omega, hxc⟩
  · rintro ⟨h1, h2, h3, h4, h5⟩
    refine ⟨q.1, ⟨h1, by omega⟩, q.2, ⟨⟨h3, by omega⟩, ?_⟩, rfl⟩
    simp [h5]

theorem get_free_cell_mem (f : GameField) (k : Nat) (c : Nat × Nat)
    (h : f.get_free_cell k = .ok c) : c ∈ f.free_cells := by
  unfold GameField.get_free_cell at h
  cases hl : f.free_cells with
  | nil =>
    rw [hl] at h
    exact absurd h (by simp)
  | cons a l =>
    rw [hl] at h
    have hc : (a :: l).getD (k % (a :: l).length) a = c := by simpa using h
    have hlt : k % (a :: l).length < (a :: l).length := Nat.mod_lt _ (by simp)
    rw [← hc, List.getD_eq_getElem _ _ hlt]
    exact List.getElem_mem hlt

theorem get_free_cell_win_iff (f : GameField) (k : Nat) :
    f.get_free_cell k = .error "win" ↔ f.free_cells = [] := by
  unfold GameField.get_free_cell
  cases hl : f.free_cells with
  | nil => simp
  | cons a l => simp

theorem init_inv (w h : Nat) (c m : Nat × Nat)
    (hc : c ∈ (GameField.withBorder w h).free_cells) : GameInv (initGame w h c m) := by
  rw [mem_free_cells] at hc
  simp only [GameField.withBorder, GameField.init] at hc
  obtain ⟨h1, h2, h3, h4, h5⟩ := hc
  constructor
  · intro y hy x hx
    show setCell (Border.mark h w fun _ => false) c true (y, x) = true ↔
      isBorderCell h w (y, x) ∨ (y, x) ∈ [c]
    rw [setCell_eval]
    by_cases hq : ((y, x) : Nat × Nat) = c
    · rw [if_pos hq]
      simp [hq]
    · rw [if_neg hq, border_mark_eval]
      by_cases hb : isBorderCell h w (y, x)
      · simp [hb]
      · simp [hb, hq]
  · refine ⟨?_, ?_, ?_⟩
    · show ([c] : List (Nat × Nat)) ≠ []
      simp
    · show ([c] : List (Nat × Nat)).Nodup
      simp
    · intro q hq
      have hq3 : q ∈ ([c] : List (Nat × Nat)) := hq
      have hq2 : q = c := by simpa using hq3
      rw [hq2]
      show Interior h w c
      unfold Interior
      omega

/-! ### Unfolding helpers for `action` and `change_direction` -/

theorem intersect_iff (m p : Nat × Nat) : Mouse.intersect m p = true ↔ m = p := by
  unfold Mouse.intersect
  simp [Bool.and_eq_true, beq_iff_eq, Prod.ext_iff, and_comm]

theorem move_ok_fields (s s1 : SnakeGame) (hne : s.snake_elements ≠ [])
    (hok : Snake.move s = .ok s1) :
    s1.direction = s.direction ∧ s1.mouse = s.mouse ∧
    Snake.head s1 = Pos.step s.direction (Snake.head s) ∧
    s1.snake_elements = Pos.step s.direction (Snake.head s) :: s.snake_elements.dropLast ∧
    s1.snake_elements.length = s.snake_elements.length := by
  cases hel : s.snake_elements with
  | nil => exact absurd hel hne
  | cons p rest =>
    obtain ⟨hfree, hs1⟩ := move_ok_dest s s1 p rest hel hok
    subst hs1
    refine ⟨rfl, rfl, by simp [Snake.head, hel], by simp [Snake.head, hel], ?_⟩
    simp [hel]

theorem grow_ok_fields (s s1 : SnakeGame) (hok : Snake.grow s = .ok s1) :
    s1.snake_elements = Pos.step s.direction (Snake.head s) :: s.snake_elements ∧
    Snake.head s1 = Pos.step s.direction (Snake.head s) ∧
    s1.direction = s.direction := by
  obtain ⟨hfree, hs1⟩ := grow_ok_spec s s1 hok
  subst hs1
  exact ⟨rfl, by simp [Snake.head], rfl⟩

theorem action_ok_no_eat (k : Nat) (s sm : SnakeGame) (hmv : Snake.move s = .ok sm)
    (hInt : Mouse.intersect sm.mouse (Snake.head sm) = false) :
    Snake.action k s = .ok { sm with direction_changed := false } := by
  unfold Snake.action
  rw [hmv]
  simp [hInt]

theorem action_eat_grow_error (k : Nat) (s sm : SnakeGame) (e : String × SnakeGame)
    (hmv : Snake.move s = .ok sm)
    (hInt : Mouse.intersect sm.mouse (Snake.head sm) = true)
    (hgr : Snake.grow sm = .error e) :
    Snake.action k s = .error e := by
  unfold Snake.action
  rw [hmv]
  simp [hInt, hgr]

theorem action_ok_eat_cases (k : Nat) (s sm s1 : SnakeGame)
    (hmv : Snake.move s = .ok sm)
    (hInt : Mouse.intersect sm.mouse (Snake.head sm) = true)
    (hok : Snake.action k s = .ok s1) :
    ∃ sg c, Snake.grow sm = .ok sg ∧ sg.game_field.get_free_cell k = .ok c ∧
      s1 = { sg with score := sg.score + 1, mouse := c, direction_changed := false } := by
  unfold Snake.action at hok
  rw [hmv] at hok
  simp only [hInt, if_true] at hok
  cases hgr : Snake.grow sm with
  | error e => simp [hgr] at hok
  | ok sg =>
    simp only [hgr] at hok
    cases hfc : sg.game_field.get_free_cell k with
    | error msg => simp [hfc] at hok
    | ok c =>
      simp only [hfc] at hok
      exact ⟨sg, c, rfl, hfc, by simpa using hok.symm⟩

theorem change_flagged_fixed (s : SnakeGame) (h : s.direction_changed = true)
    (nd : Direction) : Snake.change_direction nd s = s := by
  unfold Snake.change_direction
  simp [h]

theorem change_sets_flag (s : SnakeGame) (h : s.direction_changed = false)
    (nd : Direction) : (Snake.change_direction nd s).direction_changed = true := by
  unfold Snake.change_direction
  simp [h]

theorem foldl_change_flagged (s : SnakeGame) (h : s.direction_changed = true)
    (rs : List Direction) :
    List.foldl (fun st r => Snake.change_direction r st) s rs = s := by
  induction rs with
  | nil => rfl
  | cons r rs ih =>
    rw [List.foldl_cons, change_flagged_fixed s h r]
    exact ih

theorem change_direction_clear_eval (s : SnakeGame) (h : s.direction_changed = false)
    (nd : Direction) :
    (Snake.change_direction nd s).direction =
      if Direction.horizontal nd = Direction.horizontal s.direction then s.direction
      else nd := by
  unfold Snake.change_direction
  simp only [h, Bool.false_eq_true, if_false]
  cases nd <;> cases hd : s.direction <;> simp [Direction.horizontal, hd]

/-! ### Claim theorems -/

/-- Claim C1: starting from the initial state (border perimeter marked,
the snake's single spawn segment marked, the mouse never marked), after
every successful `Snake.action` the set of grid cells marked occupied
equals exactly the border cells together with the current segment
positions, so no vacated tail cell stays marked. `GameInv` is the
occupancy equality `OccInv` strengthened with the segment side conditions
(non-empty, duplicate-free, interior) that make it inductive. -/
theorem c1_occupancy_invariant :
    (∀ (w h : Nat) (c m : Nat × Nat), c ∈ (GameField.withBorder w h).free_cells →
      GameInv (initGame w h c m)) ∧
    (∀ (k : Nat) (s s1 : SnakeGame), GameInv s → Snake.action k s = .ok s1 →
      GameInv s1) :=
  ⟨fun w h c m hc => init_inv w h c m hc,
   fun k s s1 hInv hok => action_ok_inv k s s1 hInv hok⟩

/-- Witness for C1 at a concrete 6×6 game and one concrete tick. -/
theorem c1_occupancy_invariant_witness : GameInv demoInit ∧ GameInv demoStep :=
  ⟨c1_occupancy_invariant.1 6 6 (1, 1) (3, 3) (by decide),
   c1_occupancy_invariant.2 0 demoInit demoStep
     (c1_occupancy_invariant.1 6 6 (1, 1) (3, 3) (by decide)) (by rfl)⟩

/-- Claim C2 is wrong about the code: `get_free_cell` scans
`range(1, height - 2) × range(1, width - 2)`, which misses the last
interior row `height - 2` and the last interior column `width - 2`.
On `offByOneField` the interior cells `(1, 2)`, `(2, 1)`, `(2, 2)` are
free, yet the candidate list is empty and `GameOver('win')` is raised. -/
theorem c2_get_free_cell_off_by_one :
    offByOneField.free_cells = [] ∧
    offByOneField.get_free_cell 0 = .error "win" ∧
    Interior 4 4 (1, 2) ∧ offByOneField.cells (1, 2) = false ∧
    Interior 4 4 (2, 1) ∧ offByOneField.cells (2, 1) = false ∧
    Interior 4 4 (2, 2) ∧ offByOneField.cells (2, 2) = false :=
  ⟨by decide, by rfl, by decide, by decide, by decide, by decide, by decide, by decide⟩

/-- Claim C3: for a head move whose destination index is in bounds (no
Python negative-index wrap and no `IndexError`), advancing the head raises
`GameOver('bumped <direction>')` exactly when the destination cell is
marked occupied — whatever occupies it — and otherwise moves the head one
cell in the heading. -/
theorem c3_collision_iff_blocked (s : SnakeGame) (hin : head_move_in_bounds s) :
    (s.game_field.cells (Pos.step s.direction (Snake.head s)) = true →
      Snake.move_head s = .error (bumped s.direction, s)) ∧
    (s.game_field.cells (Pos.step s.direction (Snake.head s)) = false →
      ∃ s1, Snake.move_head s = .ok s1 ∧
        Snake.head s1 = Pos.step s.direction (Snake.head s)) ∧
    (∀ e, Snake.move_head s = .error e →
      s.game_field.cells (Pos.step s.direction (Snake.head s)) = true) := by
  refine ⟨fun hb => move_head_blocked s hb, fun hf => ?_, fun e he => ?_⟩
  · exact ⟨_, move_head_free s hf, by simp [Snake.head]⟩
  · by_cases hb : s.game_field.cells (Pos.step s.direction (Snake.head s)) = true
    · exact hb
    · rw [move_head_free s (by simpa using hb)] at he
      exact absurd he (by simp)

/-- Witness for C3 at the concrete 6×6 start state. -/
theorem c3_collision_iff_blocked_witness :
    head_move_in_bounds demoInit ∧
    ((demoInit.game_field.cells (Pos.step demoInit.direction (Snake.head demoInit)) = true →
        Snake.move_head demoInit = .error (bumped demoInit.direction, demoInit)) ∧
      (demoInit.game_field.cells (Pos.step demoInit.direction (Snake.head demoInit)) = false →
        ∃ s1, Snake.move_head demoInit = .ok s1 ∧
          Snake.head s1 = Pos.step demoInit.direction (Snake.head demoInit)) ∧
      (∀ e, Snake.move_head demoInit = .error e →
        demoInit.game_field.cells (Pos.step demoInit.direction (Snake.head demoInit)) = true)) :=
  ⟨by decide, c3_collision_iff_blocked demoInit (by decide)⟩

/-- Claim C4: with the per-tick flag clear, a requested heading is applied
exactly when it is not in the same axis-pair as the current heading; a
request for the opposite heading (same axis-pair) and a request equal to
the current heading (same axis-pair) both leave the heading unchanged. -/
theorem c4_axis_pair_guard (s : SnakeGame) (nd : Direction)
    (h : s.direction_changed = false) :
    (Direction.horizontal nd = Direction.horizontal s.direction →
      (Snake.change_direction nd s).direction = s.direction) ∧
    (Direction.horizontal nd ≠ Direction.horizontal s.direction →
      (Snake.change_direction nd s).direction = nd) := by
  have he := change_direction_clear_eval s h nd
  constructor
  · intro hax
    rw [he, if_pos hax]
  · intro hax
    rw [he, if_neg hax]

/-- Witness for C4: heading RIGHT, requesting UP (cross axis) at the
concrete start state. -/
theorem c4_axis_pair_guard_witness :
    demoInit.direction_changed = false ∧
    ((Direction.horizontal Direction.up = Direction.horizontal demoInit.direction →
        (Snake.change_direction Direction.up demoInit).direction = demoInit.direction) ∧
      (Direction.horizontal Direction.up ≠ Direction.horizontal demoInit.direction →
        (Snake.change_direction Direction.up demoInit).direction = Direction.up)) :=
  ⟨by decide, c4_axis_pair_guard demoInit Direction.up (by decide)⟩

/-- Claim C5: a processed `change_direction` call finding the per-tick
flag set leaves the whole state unchanged; a call finding it clear sets
the flag whether or not the axis guard accepted the request; hence of any
run of requests processed from a flag-clear state (between two tick
clears), only the first can alter the heading. -/
theorem c5_per_tick_debounce (s : SnakeGame) (nd : Direction) (rs : List Direction) :
    (s.direction_changed = true → Snake.change_direction nd s = s) ∧
    (s.direction_changed = false →
      (Snake.change_direction nd s).direction_changed = true) ∧
    (s.direction_changed = false →
      List.foldl (fun st r => Snake.change_direction r st) s (nd :: rs) =
        Snake.change_direction nd s) := by
  refine ⟨fun h => change_flagged_fixed s h nd, fun h => change_sets_flag s h nd, fun h => ?_⟩
  rw [List.foldl_cons]
  exact foldl_change_flagged _ (change_sets_flag s h nd) rs

/-- Witness for C5 at concrete flagged and unflagged states. -/
theorem c5_per_tick_debounce_witness :
    Snake.change_direction Direction.up demoFlagged = demoFlagged ∧
    (Snake.change_direction Direction.up demoInit).direction_changed = true ∧
    List.foldl (fun st r => Snake.change_direction r st) demoInit
        [Direction.up, Direction.left] =
      Snake.change_direction Direction.up demoInit :=
  ⟨(c5_per_tick_debounce demoFlagged Direction.up []).1 (by decide),
   (c5_per_tick_debounce demoInit Direction.up []).2.1 (by decide),
   (c5_per_tick_debounce demoInit Direction.up [Direction.left]).2.2 (by decide)⟩

/-- Claim C6: on a tick whose post-move head intersects the mouse and
which completes successfully, the snake has exactly one more segment than
before the tick, and the segment list after the tick is the head advanced
one further cell consed onto the post-move list — i.e. the extra segment
occupies the head position recorded before `grow` advanced the head (the
inserted element is a duplicate of that head made before the advance). -/
theorem c6_growth_plus_one (k : Nat) (s sm s1 : SnakeGame)
    (hne : s.snake_elements ≠ []) (hmv : Snake.move s = .ok sm)
    (hInt : sm.mouse = Snake.head sm) (hok : Snake.action k s = .ok s1) :
    s1.snake_elements.length = s.snake_elements.length + 1 ∧
    s1.snake_elements = Pos.step s.direction (Snake.head sm) :: sm.snake_elements := by
  have hIntB : Mouse.intersect sm.mouse (Snake.head sm) = true := (intersect_iff _ _).mpr hInt
  obtain ⟨sg, c, hgr, hfc, hs1⟩ := action_ok_eat_cases k s sm s1 hmv hIntB hok
  obtain ⟨hel, hhd, hdir⟩ := grow_ok_fields sm sg hgr
  obtain ⟨hd2, _, _, _, hlen⟩ := move_ok_fields s sm hne hmv
  subst hs1
  constructor
  · show sg.snake_elements.length = s.snake_elements.length + 1
    rw [hel]
    simp [hlen]
  · show sg.snake_elements = Pos.step s.direction (Snake.head sm) :: sm.snake_elements
    rw [hel, hd2]

/-- Witness for C6 at the concrete eating tick. -/
theorem c6_growth_plus_one_witness :
    demoEatStep.snake_elements.length = demoEat.snake_elements.length + 1 ∧
    demoEatStep.snake_elements =
      Pos.step demoEat.direction (Snake.head demoEatMoved) :: demoEatMoved.snake_elements :=
  c6_growth_plus_one 0 demoEat demoEatMoved demoEatStep (by decide) (by rfl) (by decide)
    (by rfl)

/-- Claim C7: `get_free_cell` never returns a border-ring cell or a cell
marked occupied, so under the occupancy invariant a respawned mouse lands
on no current snake segment and no border cell. -/
theorem c7_free_cell_safe (s : SnakeGame) (k : Nat) (c : Nat × Nat)
    (hOcc : OccInv s) (hfc : s.game_field.get_free_cell k = .ok c) :
    ¬ isBorderCell s.game_field.height s.game_field.width c ∧
    c ∉ s.snake_elements ∧ s.game_field.cells c = false := by
  have hmem := get_free_cell_mem _ _ _ hfc
  rw [mem_free_cells] at hmem
  obtain ⟨h1, h2, h3, h4, h5⟩ := hmem
  have hiff := occInv_eval s hOcc c (by omega) (by omega)
  rw [h5] at hiff
  have hnbm : ¬ (isBorderCell s.game_field.height s.game_field.width c ∨
      c ∈ s.snake_elements) := fun hcon => absurd (hiff.mpr hcon) (by simp)
  exact ⟨fun hb => hnbm (Or.inl hb), fun hm => hnbm (Or.inr hm), h5⟩

/-- Witness for C7 at the concrete start state: the sampled cell `(1, 2)`
is interior, unmarked and off the snake. -/
theorem c7_free_cell_safe_witness :
    ¬ isBorderCell demoInit.game_field.height demoInit.game_field.width (1, 2) ∧
    (1, 2) ∉ demoInit.snake_elements ∧ demoInit.game_field.cells (1, 2) = false :=
  c7_free_cell_safe demoInit 0 (1, 2) (by decide) (by rfl)

/-- Claim C8: any input code whose `Direction(event)` conversion fails —
every code other than the four arrow codes, including the `-1` no-input
sentinel — leaves the whole snake state (heading, flag, everything)
unchanged and raises nothing. -/
theorem c8_unrecognized_code_ignored (code : Int) (s : SnakeGame)
    (h : Direction.ofCode code = none) :
    Snake.event_received code s = s := by
  unfold Snake.event_received
  rw [h]

/-- Witness for C8 at the no-input sentinel `-1`. -/
theorem c8_unrecognized_code_ignored_witness :
    Snake.event_received (-1) demoInit = demoInit :=
  c8_unrecognized_code_ignored (-1) demoInit (by decide)

/-- Claim C9: on an eating tick that completes successfully the head ends
two cells from its start-of-tick position in the direction of travel
(`move` advances it once and `grow` advances it again); the second advance
is collision-checked, and when its destination is blocked the tick raises
`GameOver('bumped <direction>')` with the duplicated segment already
inserted. -/
theorem c9_eat_double_advance (k : Nat) (s sm : SnakeGame)
    (hne : s.snake_elements ≠ []) (hmv : Snake.move s = .ok sm)
    (hInt : sm.mouse = Snake.head sm) :
    (∀ s1, Snake.action k s = .ok s1 →
      Snake.head s1 = Pos.step s.direction (Pos.step s.direction (Snake.head s))) ∧
    (sm.game_field.cells (Pos.step s.direction (Pos.step s.direction (Snake.head s))) = true →
      Snake.action k s = .error (bumped s.direction,
        { sm with snake_elements := Snake.head sm :: sm.snake_elements })) := by
  have hIntB : Mouse.intersect sm.mouse (Snake.head sm) = true := (intersect_iff _ _).mpr hInt
  obtain ⟨hd2, _, hhd, _, _⟩ := move_ok_fields s sm hne hmv
  constructor
  · intro s1 hok
    obtain ⟨sg, c, hgr, hfc, hs1⟩ := action_ok_eat_cases k s sm s1 hmv hIntB hok
    obtain ⟨_, hghd, _⟩ := grow_ok_fields sm sg hgr
    subst hs1
    show Snake.head sg = Pos.step s.direction (Pos.step s.direction (Snake.head s))
    rw [hghd, hd2, hhd]
  · intro hblocked
    have hgr : Snake.grow sm = .error (bumped sm.direction,
        { sm with snake_elements := Snake.head sm :: sm.snake_elements }) := by
      unfold Snake.grow
      apply move_head_blocked
      show sm.game_field.cells (Pos.step sm.direction (Snake.head sm)) = true
      rw [hd2, hhd]
      exact hblocked
    have hact := action_eat_grow_error k s sm _ hmv hIntB hgr
    rw [hact, hd2]

/-- Witness for C9: the successful double advance on `demoEat` and the
blocked growth advance on `demoEat2` (mouse against the right wall). -/
theorem c9_eat_double_advance_witness :
    Snake.head demoEatStep =
      Pos.step demoEat.direction (Pos.step demoEat.direction (Snake.head demoEat)) ∧
    Snake.action 0 demoEat2 = .error (bumped demoEat2.direction,
      { demoEat2Moved with
        snake_elements := Snake.head demoEat2Moved :: demoEat2Moved.snake_elements }) :=
  ⟨(c9_eat_double_advance 0 demoEat demoEatMoved (by decide) (by rfl) (by decide)).1
      demoEatStep (by rfl),
   (c9_eat_double_advance 0 demoEat2 demoEat2Moved (by decide) (by rfl) (by decide)).2
      (by decide)⟩

/-- Claim C10: a colliding `Snake.move` is not atomic — when the head's
destination cell is blocked (in the grid as it stands after the tail
shift, which is when the check runs), the move raises
`GameOver('bumped <direction>')` carrying the state in which the head is
unchanged, every non-head segment has already moved to its predecessor's
previous position, and the vacated end-of-tail cell (the head's own cell
for a length-1 snake) has already been unmarked. -/
theorem c10_collision_not_atomic (s : SnakeGame) (hne : s.snake_elements ≠ [])
    (hblocked : (Snake.move_tail s).game_field.cells
      (Pos.step s.direction (Snake.head s)) = true) :
    Snake.move s = .error (bumped s.direction, Snake.move_tail s) ∧
    Snake.head (Snake.move_tail s) = Snake.head s ∧
    (Snake.move_tail s).snake_elements = Snake.head s :: s.snake_elements.dropLast ∧
    (Snake.move_tail s).game_field.cells (s.snake_elements.getLastD (0, 0)) = false := by
  cases hel : s.snake_elements with
  | nil => exact absurd hel hne
  | cons p rest =>
  have htail := move_tail_spec s p rest hel
  refine ⟨?_, ?_, ?_, ?_⟩
  · unfold Snake.move
    apply move_head_blocked
    exact hblocked
  · rw [htail]
    simp [Snake.head, hel]
  · rw [htail]
    simp [Snake.head, hel]
  · rw [htail, getLastD_shift]
    simp [setCell_eval]

/-- Witness for C10: the length-1 snake facing the right wall. -/
theorem c10_collision_not_atomic_witness :
    Snake.move demoWall = .error (bumped demoWall.direction, Snake.move_tail demoWall) ∧
    Snake.head (Snake.move_tail demoWall) = Snake.head demoWall ∧
    (Snake.move_tail demoWall).snake_elements =
      Snake.head demoWall :: demoWall.snake_elements.dropLast ∧
    (Snake.move_tail demoWall).game_field.cells
      (demoWall.snake_elements.getLastD (0, 0)) = false :=
  c10_collision_not_atomic demoWall (by decide) (by decide)
